import Mathlib

/-!
Shallow embedding of `src/quickstart/app.py`: a single-route Flask service
that classifies text with a pretrained DistilBERT sequence classifier.

The external ML runtime (transformers / torch) is modelled as opaque
handles: the model is a function from token-id sequences to a logits
vector together with its `config.id2label` dictionary; the tokenizer is a
function from strings to token-id sequences together with its maximum
sequence length.  Python exceptions are modelled with `Except`; torch's
global gradient mode is modelled explicitly so that `with torch.no_grad()`
is a real operation on process state.
-/

namespace AppModel

/-- JSON values, as produced by `request.get_json()` on a valid-JSON body. -/
inductive Json where
  | null
  | bool (b : Bool)
  | num (n : Int)
  | str (s : String)
  | arr (elems : List Json)
  | obj (fields : List (String × Json))

/-- Whether a JSON value is an object (a Python `dict` after parsing). -/
def Json.isObj : Json → Bool
  | Json.obj _ => true
  | _ => false

/-- Python exceptions that the request handler can raise. -/
inductive PyErr where
  | attributeError
  | keyError
  | runtimeError
  | valueError
deriving DecidableEq

/-- Opaque handle to the loaded classification model
(`DistilBertForSequenceClassification.from_pretrained`).  `forward` is the
external forward pass, mapping token ids to the (flattened) logits vector;
`id2label` embeds the `model.config.id2label` dictionary. -/
structure Model where
  forward : List Nat → List Int
  id2label : List (Nat × String)

/-- Opaque handle to the loaded tokenizer
(`DistilBertTokenizer.from_pretrained`).  `encode` is the external
text-to-token-ids conversion before truncation; `modelMaxLength` is the
model's maximum sequence length used for truncation. -/
structure Tokenizer where
  encode : String → List Nat
  modelMaxLength : Nat

/-- Torch global state: the gradient mode flag and a count of autograd
recording operations performed so far. -/
structure TorchState where
  gradEnabled : Bool
  gradOps : Nat
deriving DecidableEq

/-- The whole process state: the two module-level handles loaded at
startup plus the torch global state. -/
structure ProcState where
  model : Model
  tokenizer : Tokenizer
  torch : TorchState

/-- An HTTP request as seen by the handler: its method and its parsed
JSON body. -/
structure Request where
  method : String
  body : Json

/-- The JSON object returned on success: `jsonify({"text": ..., "sentiment": ...})`. -/
structure Response where
  text : String
  sentiment : String
deriving DecidableEq

/-- The fixed, hardcoded pretrained artifact identifier (line 11). -/
def MODEL_NAME : String := "distilbert-base-uncased-finetuned-sst-2-english"

/-- Python `data.get(key, dflt)` as used on line 24: only objects (dicts)
support `.get`; any other JSON value raises `AttributeError` at the
attribute access. -/
def dataGet (data : Json) (key : String) (dflt : Json) : Except PyErr Json :=
  match data with
  | Json.obj fields =>
      Except.ok (((fields.find? (fun p => p.1 == key)).map Prod.snd).getD dflt)
  | _ => Except.error PyErr.attributeError

/-- The tokenizer call requires its argument to be a string; calling it on
any other value raises. -/
def asText : Json → Except PyErr String
  | Json.str s => Except.ok s
  | _ => Except.error PyErr.valueError

/-- Tokenization with `truncation=True, padding=True` (lines 25-26): the
encoded sequence is capped at the model's maximum sequence length; padding
of a single-element batch to its own longest member is a no-op. -/
def tokenize (tok : Tokenizer) (text : String) : List Nat :=
  List.take tok.modelMaxLength (tok.encode text)

/-- The forward pass `model(**inputs).logits` threaded through torch
state: when gradient mode is enabled an autograd recording operation is
performed; in inference mode the state is untouched. -/
def modelForward (m : Model) (inputs : List Nat) (ts : TorchState) :
    List Int × TorchState :=
  (m.forward inputs,
    if ts.gradEnabled then { ts with gradOps := ts.gradOps + 1 } else ts)

/-- The `with torch.no_grad():` context manager (line 27): disables
gradient mode for the body and restores the previous mode afterwards. -/
def noGrad {α : Type} (ts : TorchState) (body : TorchState → α × TorchState) :
    α × TorchState :=
  let prev := ts.gradEnabled
  let out := body { ts with gradEnabled := false }
  (out.1, { out.2 with gradEnabled := prev })

/-- Index of the first maximal element, the semantics of
`torch.Tensor.argmax` on the flattened logits: ties are broken by the
lowest index. -/
def torchArgmaxCore : List Int → Nat
  | [] => 0
  | x :: xs => if xs.all (fun y => y ≤ x) then 0 else torchArgmaxCore xs + 1

/-- The full `logits.argmax().item()` of line 29: raises on an empty
tensor, otherwise yields the first maximal index. -/
def torchArgmax (l : List Int) : Except PyErr Nat :=
  match l with
  | [] => Except.error PyErr.runtimeError
  | _ :: _ => Except.ok (torchArgmaxCore l)

/-- Lookup in a Python dict with `Nat` keys. -/
def dictLookup (d : List (Nat × String)) (k : Nat) : Option String :=
  (d.find? (fun p => p.1 == k)).map Prod.snd

/-- The subscript `model.config.id2label[predicted_class_id]` of line 30:
a missing key raises `KeyError`. -/
def id2labelGet (m : Model) (i : Nat) : Except PyErr String :=
  match dictLookup m.id2label i with
  | some s => Except.ok s
  | none => Except.error PyErr.keyError

/-- The closed set of label strings of the model's fixed label mapping. -/
def labelValues (m : Model) : List String := m.id2label.map Prod.snd

/-- The request handler `predict` (lines 16-31), as a function on process
state.  The first component is `none` when the handler's non-POST branch
yields no value, `some (Except.error e)` when an exception escapes, and
`some (Except.ok resp)` on a JSON response. -/
def predict (req : Request) (st : ProcState) :
    Option (Except PyErr Response) × ProcState :=
  if req.method = "POST" then
    match dataGet req.body "text" (Json.str "") with
    | Except.error e => (some (Except.error e), st)
    | Except.ok v =>
      match asText v with
      | Except.error e => (some (Except.error e), st)
      | Except.ok text =>
        let inputs := tokenize st.tokenizer text
        let forwardOut := noGrad st.torch (fun ts => modelForward st.model inputs ts)
        let logits := forwardOut.1
        let st1 : ProcState := { st with torch := forwardOut.2 }
        match torchArgmax logits with
        | Except.error e => (some (Except.error e), st1)
        | Except.ok predicted_class_id =>
          match id2labelGet st.model predicted_class_id with
          | Except.error e => (some (Except.error e), st1)
          | Except.ok res =>
            (some (Except.ok { text := text, sentiment := res }), st1)
  else (none, st)

/-- Module-level startup (lines 11-13): load the model, then the
tokenizer, both from the fixed `MODEL_NAME`; an exception in either load
aborts the module and `none` is the aborted process. -/
def startup (loadModel : String → Option Model)
    (loadTokenizer : String → Option Tokenizer) : Option (Model × Tokenizer) :=
  match loadModel MODEL_NAME with
  | none => none
  | some m =>
    match loadTokenizer MODEL_NAME with
    | none => none
    | some t => some (m, t)

/-- The process reaches `app.run` (line 35) only when startup succeeded;
the served state holds the two loaded handles and torch's default
grad-enabled state. -/
def runProcess (loadModel : String → Option Model)
    (loadTokenizer : String → Option Tokenizer) : Option ProcState :=
  (startup loadModel loadTokenizer).map
    (fun p => { model := p.1, tokenizer := p.2,
                torch := { gradEnabled := true, gradOps := 0 } })

/-- Spec-side characterization of the selection rule: `i` indexes a
maximum entry of `l`, and every strictly earlier entry is strictly
smaller (ties broken by lowest index). -/
def IsFirstMaxIdx (l : List Int) (i : Nat) : Prop :=
  i < l.length ∧ (∀ j, j < l.length → l.getD j 0 ≤ l.getD i 0) ∧
    ∀ j, j < i → l.getD j 0 < l.getD i 0

/-! ### Concrete fixtures

A small two-class instance of the handles, standing in for the reference
artifact: two logits, labels `NEGATIVE` and `POSITIVE`. -/

/-- A concrete two-class model: the first logit grows with the input
length, so short inputs classify as `POSITIVE` and longer ones as
`NEGATIVE`. -/
def sstModel : Model :=
  { forward := fun ids => [Int.ofNat ids.length, 1],
    id2label := [(0, "NEGATIVE"), (1, "POSITIVE")] }

/-- A concrete tokenizer: one token per character, maximum sequence
length 512. -/
def sstTokenizer : Tokenizer :=
  { encode := fun s => List.replicate s.length 101, modelMaxLength := 512 }

/-- A served process state holding the concrete handles. -/
def sstState : ProcState :=
  { model := sstModel, tokenizer := sstTokenizer,
    torch := { gradEnabled := true, gradOps := 0 } }

/-- A state whose tokenizer caps sequences at a single token, to exercise
truncation. -/
def tinyState : ProcState :=
  { model := sstModel,
    tokenizer := { encode := fun s => List.replicate s.length 101, modelMaxLength := 1 },
    torch := { gradEnabled := true, gradOps := 0 } }

/-! ### Helper lemmas -/

/-- The forward pass wrapped in `no_grad` restores the torch state exactly. -/
theorem noGrad_modelForward_state (m : Model) (inputs : List Nat) (ts : TorchState) :
    (noGrad ts (fun s => modelForward m inputs s)).2 = ts := by
  simp [noGrad, modelForward]

/-- The handler never mutates process state (shared helper). -/
theorem predict_state_eq (req : Request) (st : ProcState) :
    (predict req st).2 = st := by
  unfold predict
  split
  · split
    · rfl
    · split
      · rfl
      · dsimp only
        split
        · rfl
        · split <;> rfl
  · rfl

/-- A successful `id2label` subscript means the key is bound to the value. -/
theorem id2labelGet_ok {m : Model} {i : Nat} {s : String}
    (h : id2labelGet m i = Except.ok s) : dictLookup m.id2label i = some s := by
  unfold id2labelGet at h
  cases hl : dictLookup m.id2label i with
  | none => rw [hl] at h; exact Except.noConfusion h
  | some s' => rw [hl] at h; injection h with h; rw [h]

/-- A successful dict lookup yields one of the dict's values. -/
theorem dictLookup_mem {d : List (Nat × String)} {k : Nat} {s : String}
    (h : dictLookup d k = some s) : s ∈ d.map Prod.snd := by
  unfold dictLookup at h
  cases hf : d.find? (fun p => p.1 == k) with
  | none => rw [hf] at h; simp at h
  | some p =>
      rw [hf] at h
      injection h with h
      subst h
      exact List.mem_map_of_mem Prod.snd (List.mem_of_find?_eq_some hf)

/-- Inversion of a successful response: the successful branch ran, the
argmax of the logits for the echoed text succeeded, and the label came
from the `id2label` lookup at that index. -/
theorem predict_ok_inv {req : Request} {st : ProcState} {resp : Response}
    (h : (predict req st).1 = some (Except.ok resp)) :
    ∃ i, torchArgmax (st.model.forward (tokenize st.tokenizer resp.text)) = Except.ok i ∧
      dictLookup st.model.id2label i = some resp.sentiment := by
  by_cases hm : req.method = "POST"
  · unfold predict at h
    rw [if_pos hm] at h
    cases hd : dataGet req.body "text" (Json.str "") with
    | error e => rw [hd] at h; exact Except.noConfusion (Option.some.inj h)
    | ok v =>
      rw [hd] at h
      dsimp only at h
      cases hv : asText v with
      | error e => rw [hv] at h; exact Except.noConfusion (Option.some.inj h)
      | ok text =>
        rw [hv] at h
        dsimp only at h
        simp only [noGrad, modelForward] at h
        cases ha : torchArgmax (st.model.forward (tokenize st.tokenizer text)) with
        | error e => rw [ha] at h; exact Except.noConfusion (Option.some.inj h)
        | ok i =>
          rw [ha] at h
          dsimp only at h
          cases hg : id2labelGet st.model i with
          | error e => rw [hg] at h; exact Except.noConfusion (Option.some.inj h)
          | ok res =>
            rw [hg] at h
            dsimp only at h
            have hr : Response.mk text res = resp := Except.ok.inj (Option.some.inj h)
            subst hr
            exact ⟨i, ha, id2labelGet_ok hg⟩
  · unfold predict at h
    rw [if_neg hm] at h
    exact Option.noConfusion h

/-- Forward evaluation of the POST success path: with the extracted text,
a nonempty logits vector and a label bound at the argmax index, the
handler returns the echoing JSON response. -/
theorem predict_post_ok {req : Request} {st : ProcState} {text lbl : String}
    (hm : req.method = "POST")
    (ht : dataGet req.body "text" (Json.str "") = Except.ok (Json.str text))
    (hnil : st.model.forward (tokenize st.tokenizer text) ≠ [])
    (hlbl : dictLookup st.model.id2label
        (torchArgmaxCore (st.model.forward (tokenize st.tokenizer text))) = some lbl) :
    (predict req st).1 = some (Except.ok { text := text, sentiment := lbl }) := by
  unfold predict
  rw [if_pos hm, ht]
  dsimp only [asText]
  simp only [noGrad, modelForward]
  cases hL : st.model.forward (tokenize st.tokenizer text) with
  | nil => exact absurd hL hnil
  | cons x xs =>
    rw [hL] at hlbl
    simp [torchArgmax, id2labelGet, hlbl]

/-- On a nonempty list, `torchArgmaxCore` picks the index of a maximum
entry and breaks ties by the lowest index. -/
theorem torchArgmaxCore_isFirstMax :
    ∀ (l : List Int), l ≠ [] → IsFirstMaxIdx l (torchArgmaxCore l) := by
  intro l
  induction l with
  | nil => intro h; exact absurd rfl h
  | cons x xs ih =>
    intro _
    by_cases hall : (xs.all fun y => y ≤ x) = true
    · have hcore : torchArgmaxCore (x :: xs) = 0 := by
        simp only [torchArgmaxCore]
        rw [if_pos hall]
      simp only [List.all_eq_true, decide_eq_true_eq] at hall
      rw [hcore]
      refine ⟨by simp, ?_, ?_⟩
      · intro j hj
        cases j with
        | zero => exact le_refl _
        | succ k =>
          rw [List.getD_cons_succ, List.getD_cons_zero]
          have hk : k < xs.length := by simpa using hj
          rw [List.getD_eq_getElem xs 0 hk]
          exact hall _ (List.getElem_mem hk)
      · intro j hj
        exact absurd hj (Nat.not_lt_zero j)
    · have hxs : xs ≠ [] := by
        intro he
        subst he
        exact hall (by simp)
      have hcore : torchArgmaxCore (x :: xs) = torchArgmaxCore xs + 1 := by
        simp only [torchArgmaxCore]
        rw [if_neg hall]
      obtain ⟨h1, h2, h3⟩ := ih hxs
      have hex : ∃ y ∈ xs, x < y := by
        simp only [List.all_eq_true, decide_eq_true_eq] at hall
        push_neg at hall
        exact hall
      obtain ⟨y, hy, hxy⟩ := hex
      obtain ⟨k, hk, hky⟩ := List.mem_iff_getElem.mp hy
      have hxlt : x < xs.getD (torchArgmaxCore xs) 0 := by
        have hgk : xs.getD k 0 = y := by rw [List.getD_eq_getElem xs 0 hk, hky]
        calc x < y := hxy
          _ = xs.getD k 0 := hgk.symm
          _ ≤ xs.getD (torchArgmaxCore xs) 0 := h2 k hk
      rw [hcore]
      refine ⟨by simpa using Nat.succ_lt_succ h1, ?_, ?_⟩
      · intro j hj
        rw [List.getD_cons_succ]
        cases j with
        | zero => rw [List.getD_cons_zero]; exact le_of_lt hxlt
        | succ k2 =>
          rw [List.getD_cons_succ]
          exact h2 k2 (by simpa using hj)
      · intro j hj
        rw [List.getD_cons_succ]
        cases j with
        | zero => rw [List.getD_cons_zero]; exact hxlt
        | succ k2 =>
          rw [List.getD_cons_succ]
          exact h3 k2 (Nat.lt_of_succ_lt_succ hj)

/-- A successful `torch.argmax` call yields the first maximal index. -/
theorem torchArgmax_ok_isFirstMax {l : List Int} {i : Nat}
    (h : torchArgmax l = Except.ok i) : IsFirstMaxIdx l i := by
  cases l with
  | nil => exact Except.noConfusion h
  | cons x xs =>
    have hi : torchArgmaxCore (x :: xs) = i := Except.ok.inj h
    rw [← hi]
    exact torchArgmaxCore_isFirstMax (x :: xs) (by simp)

/-- A successful response carries exactly the text extracted from the
body (shared helper). -/
theorem predict_ok_text {req : Request} {st : ProcState} {resp : Response} {t : String}
    (ht : dataGet req.body "text" (Json.str "") = Except.ok (Json.str t))
    (h : (predict req st).1 = some (Except.ok resp)) : resp.text = t := by
  by_cases hm : req.method = "POST"
  · unfold predict at h
    rw [if_pos hm, ht] at h
    dsimp only [asText] at h
    simp only [noGrad, modelForward] at h
    cases ha : torchArgmax (st.model.forward (tokenize st.tokenizer t)) with
    | error e => rw [ha] at h; exact Except.noConfusion (Option.some.inj h)
    | ok i =>
      rw [ha] at h
      dsimp only at h
      cases hg : id2labelGet st.model i with
      | error e => rw [hg] at h; exact Except.noConfusion (Option.some.inj h)
      | ok res =>
        rw [hg] at h
        have hr : Response.mk t res = resp := Except.ok.inj (Option.some.inj h)
        rw [← hr]
  · unfold predict at h
    rw [if_neg hm] at h
    exact Option.noConfusion h

/-- A body that is a JSON object binding "text" to a string extracts that
string (shared helper). -/
theorem dataGet_obj_found {fields : List (String × Json)} {s : String}
    (hfind : fields.find? (fun p => p.1 == "text") = some ("text", Json.str s)) :
    dataGet (Json.obj fields) "text" (Json.str "") = Except.ok (Json.str s) := by
  show Except.ok ((Option.map Prod.snd
    (fields.find? (fun p => p.1 == "text"))).getD (Json.str "")) = Except.ok (Json.str s)
  rw [hfind]
  rfl

/-- A body that is a JSON object without a "text" binding extracts the
empty-string default (shared helper). -/
theorem dataGet_obj_missing {fields : List (String × Json)}
    (hfind : fields.find? (fun p => p.1 == "text") = none) :
    dataGet (Json.obj fields) "text" (Json.str "") = Except.ok (Json.str "") := by
  show Except.ok ((Option.map Prod.snd
    (fields.find? (fun p => p.1 == "text"))).getD (Json.str "")) = Except.ok (Json.str "")
  rw [hfind]
  rfl

/-! ### Claim theorems -/

/-- C1: for every request handled by `predict`, a returned sentiment is an
element of the model's fixed label mapping; it is never a string outside
that closed set. -/
theorem sentiment_mem_labelValues (req : Request) (st : ProcState) (resp : Response)
    (h : (predict req st).1 = some (Except.ok resp)) :
    resp.sentiment ∈ labelValues st.model := by
  obtain ⟨i, _, hl⟩ := predict_ok_inv h
  exact dictLookup_mem hl

/-- Witness for C1: a concrete successful call against the concrete state
returns a label of the fixed mapping. -/
theorem sentiment_mem_labelValues_witness :
    (Response.mk "hi" "NEGATIVE").sentiment ∈ labelValues sstState.model :=
  sentiment_mem_labelValues { method := "POST", body := Json.obj [("text", Json.str "hi")] }
    sstState (Response.mk "hi" "NEGATIVE") rfl

/-- C2: for every request whose body binds "text" to the string `s`, the
`text` field of any response produced by `predict` is character-for-character
identical to `s`. -/
theorem response_text_echoes (st : ProcState) (fields : List (String × Json))
    (s : String) (resp : Response)
    (hfind : fields.find? (fun p => p.1 == "text") = some ("text", Json.str s))
    (h : (predict { method := "POST", body := Json.obj fields } st).1 =
      some (Except.ok resp)) :
    resp.text = s :=
  predict_ok_text (dataGet_obj_found hfind) h

/-- Witness for C2 at a concrete request. -/
theorem response_text_echoes_witness : (Response.mk "hi" "NEGATIVE").text = "hi" :=
  response_text_echoes sstState [("text", Json.str "hi")] "hi"
    (Response.mk "hi" "NEGATIVE") rfl rfl

/-- C3: calling `predict` twice with the same nonempty text, against the
same loaded model and tokenizer (the state after the first call), yields
the same result, in particular the same sentiment label. -/
theorem predict_deterministic (st : ProcState) (s : String) (_hs : s ≠ "") :
    (predict { method := "POST", body := Json.obj [("text", Json.str s)] }
        ((predict { method := "POST", body := Json.obj [("text", Json.str s)] } st).2)).1 =
      (predict { method := "POST", body := Json.obj [("text", Json.str s)] } st).1 := by
  rw [predict_state_eq]

/-- Witness for C3 at a concrete nonempty string. -/
theorem predict_deterministic_witness :
    (predict { method := "POST", body := Json.obj [("text", Json.str "hi")] }
        ((predict { method := "POST", body := Json.obj [("text", Json.str "hi")] }
          sstState).2)).1 =
      (predict { method := "POST", body := Json.obj [("text", Json.str "hi")] }
        sstState).1 :=
  predict_deterministic sstState "hi" (by decide)

/-- C4: a POST whose JSON-object body lacks the "text" key defaults the
text to the empty string, raises no error, and returns a response pairing
"" with a valid label of the fixed mapping (given that the model produces
a nonempty logits vector for the empty text and its argmax index is bound
in `id2label`). -/
theorem missing_text_defaults_empty (st : ProcState) (fields : List (String × Json))
    (lbl : String)
    (hfind : fields.find? (fun p => p.1 == "text") = none)
    (hnil : st.model.forward (tokenize st.tokenizer "") ≠ [])
    (hlbl : dictLookup st.model.id2label
        (torchArgmaxCore (st.model.forward (tokenize st.tokenizer ""))) = some lbl) :
    (predict { method := "POST", body := Json.obj fields } st).1 =
        some (Except.ok { text := "", sentiment := lbl }) ∧
      lbl ∈ labelValues st.model :=
  ⟨predict_post_ok rfl (dataGet_obj_missing hfind) hnil hlbl, dictLookup_mem hlbl⟩

/-- Witness for C4: the empty body object against the concrete state. -/
theorem missing_text_defaults_empty_witness :
    (predict { method := "POST", body := Json.obj [] } sstState).1 =
        some (Except.ok { text := "", sentiment := "POSITIVE" }) ∧
      "POSITIVE" ∈ labelValues sstState.model :=
  missing_text_defaults_empty sstState [] "POSITIVE" rfl (by decide) rfl

/-- C5: `predict` selects the index of the maximum logit, breaking ties
by the lowest index, and returns the label bound to that index in the
label mapping. -/
theorem predict_selects_first_argmax (st : ProcState) (fields : List (String × Json))
    (s lbl : String)
    (hfind : fields.find? (fun p => p.1 == "text") = some ("text", Json.str s))
    (hnil : st.model.forward (tokenize st.tokenizer s) ≠ [])
    (hlbl : dictLookup st.model.id2label
        (torchArgmaxCore (st.model.forward (tokenize st.tokenizer s))) = some lbl) :
    IsFirstMaxIdx (st.model.forward (tokenize st.tokenizer s))
        (torchArgmaxCore (st.model.forward (tokenize st.tokenizer s))) ∧
      (predict { method := "POST", body := Json.obj fields } st).1 =
        some (Except.ok { text := s, sentiment := lbl }) :=
  ⟨torchArgmaxCore_isFirstMax _ hnil,
    predict_post_ok rfl (dataGet_obj_found hfind) hnil hlbl⟩

/-- Witness for C5 at a concrete request. -/
theorem predict_selects_first_argmax_witness :
    IsFirstMaxIdx (sstState.model.forward (tokenize sstState.tokenizer "hi"))
        (torchArgmaxCore (sstState.model.forward (tokenize sstState.tokenizer "hi"))) ∧
      (predict { method := "POST", body := Json.obj [("text", Json.str "hi")] }
          sstState).1 =
        some (Except.ok { text := "hi", sentiment := "NEGATIVE" }) :=
  predict_selects_first_argmax sstState [("text", Json.str "hi")] "hi" "NEGATIVE"
    rfl (by decide) rfl

/-- C6: every call of `predict` leaves all process state unchanged: the
model (parameters and label mapping), the tokenizer and the torch
gradient state are identical before and after the call; the forward pass
records no gradient operation and nothing is persisted between calls. -/
theorem predict_frame (req : Request) (st : ProcState) : (predict req st).2 = st :=
  predict_state_eq req st

/-- C7: input whose encoding exceeds the maximum sequence length is
truncated to exactly that length during tokenization rather than
rejected, and the handler still returns the echoing response with a valid
label of the fixed mapping. -/
theorem overlong_input_truncated (st : ProcState) (fields : List (String × Json))
    (s lbl : String)
    (hlong : st.tokenizer.modelMaxLength < (st.tokenizer.encode s).length)
    (hfind : fields.find? (fun p => p.1 == "text") = some ("text", Json.str s))
    (hnil : st.model.forward (tokenize st.tokenizer s) ≠ [])
    (hlbl : dictLookup st.model.id2label
        (torchArgmaxCore (st.model.forward (tokenize st.tokenizer s))) = some lbl) :
    (tokenize st.tokenizer s).length = st.tokenizer.modelMaxLength ∧
      (predict { method := "POST", body := Json.obj fields } st).1 =
        some (Except.ok { text := s, sentiment := lbl }) ∧
      lbl ∈ labelValues st.model := by
  refine ⟨?_, predict_post_ok rfl (dataGet_obj_found hfind) hnil hlbl,
    dictLookup_mem hlbl⟩
  unfold tokenize
  rw [List.length_take]
  exact Nat.min_eq_left (Nat.le_of_lt hlong)

/-- Witness for C7: a two-character text against a tokenizer capped at one
token. -/
theorem overlong_input_truncated_witness :
    (tokenize tinyState.tokenizer "hi").length = tinyState.tokenizer.modelMaxLength ∧
      (predict { method := "POST", body := Json.obj [("text", Json.str "hi")] }
          tinyState).1 =
        some (Except.ok { text := "hi", sentiment := "NEGATIVE" }) ∧
      "NEGATIVE" ∈ labelValues tinyState.model :=
  overlong_input_truncated tinyState [("text", Json.str "hi")] "hi" "NEGATIVE"
    (by decide) rfl (by decide) rfl

/-- C8: the process serves only if both handles loaded from the one fixed
artifact identifier, and a failing load means the process never starts
serving. -/
theorem startup_atomic (loadModel : String → Option Model)
    (loadTokenizer : String → Option Tokenizer) :
    (∀ st, runProcess loadModel loadTokenizer = some st →
        loadModel MODEL_NAME = some st.model ∧
          loadTokenizer MODEL_NAME = some st.tokenizer) ∧
      ((loadModel MODEL_NAME = none ∨ loadTokenizer MODEL_NAME = none) →
        runProcess loadModel loadTokenizer = none) := by
  constructor
  · intro st hst
    unfold runProcess startup at hst
    cases hm : loadModel MODEL_NAME with
    | none => rw [hm] at hst; exact Option.noConfusion hst
    | some m =>
      rw [hm] at hst
      cases ht : loadTokenizer MODEL_NAME with
      | none => rw [ht] at hst; exact Option.noConfusion hst
      | some t =>
        rw [ht] at hst
        have hs : ProcState.mk m t { gradEnabled := true, gradOps := 0 } = st :=
          Option.some.inj hst
        rw [← hs]
        exact ⟨rfl, rfl⟩
  · intro hfail
    unfold runProcess startup
    cases hfail with
    | inl h => rw [h]; rfl
    | inr h =>
      cases hm : loadModel MODEL_NAME with
      | none => rfl
      | some m => rw [h]; rfl

/-- Witness for C8: a failing model load yields a process that never
serves. -/
theorem startup_atomic_witness :
    runProcess (fun _ => none) (fun _ => some sstTokenizer) = none :=
  (startup_atomic (fun _ => none) (fun _ => some sstTokenizer)).2 (Or.inl rfl)

/-- C9: the handler produces no value exactly for non-POST methods; only
under the POST precondition does it yield a result. -/
theorem predict_post_only (req : Request) (st : ProcState) :
    (predict req st).1 = none ↔ req.method ≠ "POST" := by
  constructor
  · intro h hm
    unfold predict at h
    rw [if_pos hm] at h
    cases hd : dataGet req.body "text" (Json.str "") with
    | error e => rw [hd] at h; exact Option.noConfusion h
    | ok v =>
      rw [hd] at h
      dsimp only at h
      cases hv : asText v with
      | error e => rw [hv] at h; exact Option.noConfusion h
      | ok text =>
        rw [hv] at h
        dsimp only at h
        simp only [noGrad, modelForward] at h
        cases ha : torchArgmax (st.model.forward (tokenize st.tokenizer text)) with
        | error e => rw [ha] at h; exact Option.noConfusion h
        | ok i =>
          rw [ha] at h
          dsimp only at h
          cases hg : id2labelGet st.model i with
          | error e => rw [hg] at h; exact Option.noConfusion h
          | ok res => rw [hg] at h; exact Option.noConfusion h
  · intro hm
    unfold predict
    rw [if_neg hm]

/-- Witness for C9: a GET request yields no value. -/
theorem predict_post_only_witness :
    (predict { method := "GET", body := Json.null } sstState).1 = none :=
  (predict_post_only { method := "GET", body := Json.null } sstState).mpr (by decide)

/-- C10: the lenient empty-string default applies only to JSON objects: a
POST whose valid-JSON body is not an object raises AttributeError at the
field access instead of defaulting. -/
theorem nonobject_body_raises (st : ProcState) (req : Request)
    (hm : req.method = "POST") (hobj : req.body.isObj = false) :
    (predict req st).1 = some (Except.error PyErr.attributeError) := by
  unfold predict
  rw [if_pos hm]
  cases hb : req.body with
  | null => rfl
  | bool b => rfl
  | num n => rfl
  | str s => rfl
  | arr elems => rfl
  | obj fields =>
    rw [hb] at hobj
    exact Bool.noConfusion hobj

/-- Witness for C10: a JSON-array body raises AttributeError. -/
theorem nonobject_body_raises_witness :
    (predict { method := "POST", body := Json.arr [] } sstState).1 =
      some (Except.error PyErr.attributeError) :=
  nonobject_body_raises sstState { method := "POST", body := Json.arr [] } rfl rfl

end AppModel
